/-
Verification of the deltamulti-modular trading bot against its
natural-language specification.

A shallow embedding of the relevant Python source into Lean 4:
  * numeric values are modelled as ℚ; where a claim depends on the
    rounding of Python's IEEE-754 binary64 floats, the evaluation is
    modelled exactly by `roundF64` (every finite double is an exact
    rational);
  * fallible operations return `Except String`;
  * the HTTP client is modelled as a response function, and each API
    method additionally returns the trace of requests it issued;
  * Python dict entries relevant to a claim are record fields.
Each definition carries a comment naming the source file and lines it
embeds.
-/
import Mathlib

namespace DeltaBot

/-! ## Order sides and constants (src/config/constants.py) -/

/-- src/config/constants.py line 66: `SIDE_BUY = "buy"`. -/
def SIDE_BUY : String := "buy"

/-- src/config/constants.py line 67: `SIDE_SELL = "sell"`. -/
def SIDE_SELL : String := "sell"

/-- src/config/constants.py line 60: `ORDER_TYPE_MARKET = "market_order"`. -/
def ORDER_TYPE_MARKET : String := "market_order"

/-- src/config/constants.py line 61: `ORDER_TYPE_LIMIT = "limit_order"`. -/
def ORDER_TYPE_LIMIT : String := "limit_order"

/-- src/config/constants.py line 62: `STOP_ORDER_TYPE_SL = "stop_loss_order"`. -/
def STOP_ORDER_TYPE_SL : String := "stop_loss_order"

/-- src/config/constants.py line 63: `STOP_ORDER_TYPE_TP = "take_profit_order"`. -/
def STOP_ORDER_TYPE_TP : String := "take_profit_order"

/-- src/config/constants.py lines 38-41: the four stop-loss input states. -/
def STATE_AWAITING_SL_TRIGGER_PCT : String := "awaiting_sl_trigger_pct"

def STATE_AWAITING_SL_LIMIT_PCT : String := "awaiting_sl_limit_pct"

def STATE_AWAITING_SL_TRIGGER_NUM : String := "awaiting_sl_trigger_num"

def STATE_AWAITING_SL_LIMIT_NUM : String := "awaiting_sl_limit_num"

/-! ## Price helpers (src/utils/helpers.py) -/

/-- src/utils/helpers.py lines 26-47, `calculate_stop_price_from_percentage`:
the formula `entry_price * (1 - percentage / 100)` for a long position,
`entry_price * (1 + percentage / 100)` for a short one, stated in exact
rational arithmetic; `calculate_stop_price_from_percentage_f64` below
evaluates the same expression in the binary64 arithmetic the Python
runtime performs. -/
def calculate_stop_price_from_percentage (entry_price percentage : ℚ)
    (is_long : Bool) : ℚ :=
  if is_long then entry_price * (1 - percentage / 100)
  else entry_price * (1 + percentage / 100)

/-- src/utils/helpers.py lines 49-70, `calculate_target_price_from_percentage`:
the formula `entry_price * (1 + percentage / 100)` for a long position,
`entry_price * (1 - percentage / 100)` for a short one, stated in exact
rational arithmetic; `calculate_target_price_from_percentage_f64` below
evaluates the same expression in the binary64 arithmetic the Python
runtime performs. -/
def calculate_target_price_from_percentage (entry_price percentage : ℚ)
    (is_long : Bool) : ℚ :=
  if is_long then entry_price * (1 + percentage / 100)
  else entry_price * (1 - percentage / 100)

/-- src/utils/helpers.py lines 72-82, `determine_position_side`:
`"long" if size > 0 else "short"`. -/
def determine_position_side (size : ℤ) : String :=
  if size > 0 then "long" else "short"

/-- src/callbacks/stoploss.py lines 326 and 339 (and identically
src/callbacks/target.py line 337): `is_long = size > 0;
order_side = SIDE_SELL if is_long else SIDE_BUY`. -/
def protective_order_side (size : ℤ) : String :=
  if size > 0 then SIDE_SELL else SIDE_BUY

/-! ## IEEE-754 binary64 evaluation (the semantics of Python floats)

The price helpers run on Python floats.  Every finite double is an
exact rational, and each arithmetic operation rounds its exact result
to the nearest double (ties to even), so float evaluation is modelled
exactly inside ℚ: `roundF64` is that rounding, and the `_f64` helpers
evaluate the source's expressions with a rounding step after every
operation.  The model covers nonzero finite values in the normal range,
which contains every value these claims touch. -/

/-- Round a rational lying near the mantissa scale to an integer:
round to nearest, ties to even. -/
def roundHalfEvenQ (x : ℚ) : ℤ :=
  let f := ⌊x⌋
  let r := x - (f : ℚ)
  if r < 1 / 2 then f
  else if 1 / 2 < r then f + 1
  else if f % 2 = 0 then f else f + 1

/-- Scale a positive rational by powers of two into the mantissa range
[2^52, 2^53), returning the scaled value and the binary exponent used;
the fuel bounds the walk and covers the whole binary64 range. -/
def frexpAux : ℕ → ℚ → ℤ → ℚ × ℤ
  | 0, a, e => (a, e)
  | fuel + 1, a, e =>
    if a < 2 ^ 52 then frexpAux fuel (a * 2) (e - 1)
    else if 2 ^ 53 ≤ a then frexpAux fuel (a / 2) (e + 1)
    else (a, e)

/-- The binary64 double nearest to `q` (round to nearest, ties to
even), as an exact rational, for `q` in the normal finite range. -/
def roundF64 (q : ℚ) : ℚ :=
  if q = 0 then 0
  else
    let a := if q < 0 then -q else q
    let (m, e) := frexpAux 4000 a 0
    (if q < 0 then -1 else 1) * (roundHalfEvenQ m : ℚ) * 2 ^ e

/-- src/utils/helpers.py lines 26-47 under Python float semantics:
`entry_price * (1 - percentage / 100)` (long) or
`entry_price * (1 + percentage / 100)` (short), with the division, the
addition/subtraction and the multiplication each rounding to the
nearest double as the runtime does; the arguments are the double values
the caller passes. -/
def calculate_stop_price_from_percentage_f64 (entry_price percentage : ℚ)
    (is_long : Bool) : ℚ :=
  if is_long then
    roundF64 (entry_price * roundF64 (1 - roundF64 (percentage / 100)))
  else
    roundF64 (entry_price * roundF64 (1 + roundF64 (percentage / 100)))

/-- src/utils/helpers.py lines 49-70 under Python float semantics:
`entry_price * (1 + percentage / 100)` (long) or
`entry_price * (1 - percentage / 100)` (short), rounding after every
operation as the runtime does. -/
def calculate_target_price_from_percentage_f64 (entry_price percentage : ℚ)
    (is_long : Bool) : ℚ :=
  if is_long then
    roundF64 (entry_price * roundF64 (1 + roundF64 (percentage / 100)))
  else
    roundF64 (entry_price * roundF64 (1 - roundF64 (percentage / 100)))

/-! ## Python `min(xs, key=f)` (used by the ATM strike selection)

Python's `min` with a `key` scans left to right and keeps the current
minimum, replacing it only on a strictly smaller key, so the FIRST
minimiser in iteration order wins. -/

/-- Left-to-right minimum-by-key with first-minimiser tie-breaking,
the semantics of Python `min(x :: xs, key=key)`. -/
def pyMinBy (key : ℚ → ℚ) (x : ℚ) (xs : List ℚ) : ℚ :=
  xs.foldl (fun b y => if key y < key b then y else b) x

/-! ## Python `float(str)` on finite decimal literals

`validate_percentage` / `validate_price` (src/utils/validators.py) call
`float(pct_input)` and treat `ValueError` as invalid input.  We model
`float` on finite decimal literals (optional sign, digits with an
optional dot, optional exponent); the exotic inputs Python additionally
accepts (`inf`, `nan`, digit-group underscores, surrounding whitespace)
do not occur here because the handlers strip their input first and the
claims concern plain numerals. -/

/-- Longest prefix of decimal digits, returned as digit values. -/
def spanDigits : List Char → List ℕ × List Char
  | [] => ([], [])
  | c :: cs =>
    if c.isDigit then
      let (ds, rest) := spanDigits cs
      ((c.toNat - 48) :: ds, rest)
    else ([], c :: cs)

/-- The natural number written by a digit list (most significant first). -/
def natOfDigits (ds : List ℕ) : ℕ :=
  ds.foldl (fun a d => a * 10 + d) 0

/-- Model of Python `float(s)` on finite decimal literals: `some q` when
`s` is a valid literal with value `q`, `none` when `float` raises
`ValueError`. -/
def pyFloat (s : String) : Option ℚ :=
  let cs := s.toList
  let (sign, cs1) : ℚ × List Char :=
    match cs with
    | '-' :: r => (-1, r)
    | '+' :: r => (1, r)
    | r => (1, r)
  let (ip, cs2) := spanDigits cs1
  let (fp, cs3) : List ℕ × List Char :=
    match cs2 with
    | '.' :: r => spanDigits r
    | r => ([], r)
  -- a literal needs at least one digit in the mantissa, and "." alone
  -- (no digits either side of the dot) is invalid
  if ip.isEmpty ∧ fp.isEmpty then none
  else
    match cs3 with
    | [] =>
      some (sign * ((natOfDigits ip : ℚ) + (natOfDigits fp : ℚ) / 10 ^ fp.length))
    | 'e' :: r =>
      let (esign, r1) : ℤ × List Char :=
        match r with
        | '-' :: r2 => (-1, r2)
        | '+' :: r2 => (1, r2)
        | r2 => (1, r2)
      let (ed, r2) := spanDigits r1
      if ed.isEmpty ∨ ¬ r2.isEmpty then none
      else
        some (sign * ((natOfDigits ip : ℚ) + (natOfDigits fp : ℚ) / 10 ^ fp.length)
          * (10 : ℚ) ^ (esign * (natOfDigits ed : ℤ)))
    | 'E' :: r =>
      let (esign, r1) : ℤ × List Char :=
        match r with
        | '-' :: r2 => (-1, r2)
        | '+' :: r2 => (1, r2)
        | r2 => (1, r2)
      let (ed, r2) := spanDigits r1
      if ed.isEmpty ∨ ¬ r2.isEmpty then none
      else
        some (sign * ((natOfDigits ip : ℚ) + (natOfDigits fp : ℚ) / 10 ^ fp.length)
          * (10 : ℚ) ^ (esign * (natOfDigits ed : ℤ)))
    | _ => none

/-! ## Input validators (src/utils/validators.py) -/

/-- src/utils/validators.py lines 31-53, `validate_percentage`: returns
`(is_valid, percentage, error_message)`; a `ValueError` from `float`
yields the "Invalid percentage" branch, then the value is required to be
in (0, 100]. -/
def validate_percentage (pct_input : String) :
    Bool × Option ℚ × Option String :=
  match pyFloat pct_input with
  | none => (false, none, some "Invalid percentage. Please enter a number")
  | some percentage =>
    if percentage ≤ 0 then (false, none, some "Percentage must be positive")
    else if percentage > 100 then
      (false, none, some "Percentage too large (max: 100%)")
    else (true, some percentage, none)

/-- src/utils/validators.py lines 55-77, `validate_price`: returns
`(is_valid, price, error_message)`; a `ValueError` from `float` yields
the "Invalid price" branch, then the value is required to be in
(0, 1000000]. -/
def validate_price (price_input : String) :
    Bool × Option ℚ × Option String :=
  match pyFloat price_input with
  | none => (false, none, some "Invalid price. Please enter a number")
  | some price =>
    if price ≤ 0 then (false, none, some "Price must be positive")
    else if price > 1000000 then (false, none, some "Price too large")
    else (true, some price, none)

/-- src/utils/validators.py lines 7-29, `validate_lot_size`: integer
parse, then the value is required to be in [1, 1000].  Python `int(s)`
accepts an optional sign followed by digits; modelled on that grammar. -/
def pyInt (s : String) : Option ℤ :=
  let cs := s.toList
  let (sign, cs1) : ℤ × List Char :=
    match cs with
    | '-' :: r => (-1, r)
    | '+' :: r => (1, r)
    | r => (1, r)
  let (ds, rest) := spanDigits cs1
  if ds.isEmpty ∨ ¬ rest.isEmpty then none
  else some (sign * (natOfDigits ds : ℤ))

def validate_lot_size (lot_input : String) :
    Bool × Option ℤ × Option String :=
  match pyInt lot_input with
  | none => (false, none, some "Invalid lot size. Please enter a number")
  | some lot_size =>
    if lot_size ≤ 0 then (false, none, some "Lot size must be positive")
    else if lot_size > 1000 then
      (false, none, some "Lot size too large (max: 1000)")
    else (true, some lot_size, none)

/-! ## Per-user session context (src/utils/context_manager.py) -/

/-- One entry of the `temp_data` scratch dict; the stop-loss workflow
stores rationals (sizes, prices, percentages) and the method string. -/
inductive TempVal
  | num (q : ℚ)
  | str (s : String)
deriving DecidableEq, Repr

/-- Dict update: Python `d[k] = v` (last write wins on the key). -/
def tdSet (td : List (String × TempVal)) (k : String) (v : TempVal) :
    List (String × TempVal) :=
  (k, v) :: td.filter (fun e => e.1 ≠ k)

/-- Dict lookup: Python `d[k]`, `none` when the key would raise. -/
def tdGet (td : List (String × TempVal)) (k : String) : Option TempVal :=
  (td.find? (fun e => e.1 = k)).map (·.2)

/-- src/utils/context_manager.py lines 7-24, `UserContext.__init__`:
the per-user session record.  Credentials are the `{api_key, api_secret}`
pair when set. -/
structure UserContext where
  user_id : ℤ
  account_index : Option ℤ
  account_credentials : Option (String × String)
  account_name : Option String
  account_description : Option String
  selected_asset : Option String
  selected_expiry : Option ℤ
  selected_strike : Option ℚ
  call_product_id : Option ℤ
  put_product_id : Option ℤ
  lot_size : Option ℤ
  trade_direction : Option String
  conversation_state : Option String
  temp_data : List (String × TempVal)
deriving DecidableEq, Repr

/-- src/utils/context_manager.py lines 58-67, `UserContext.clear_trade_data`:
sets the seven trade fields to `None` and `temp_data` to `{}`. -/
def clear_trade_data (ctx : UserContext) : UserContext :=
  { ctx with
    selected_asset := none
    selected_expiry := none
    selected_strike := none
    call_product_id := none
    put_product_id := none
    lot_size := none
    trade_direction := none
    temp_data := [] }

/-- src/callbacks/account.py lines 112-150, `handle_main_menu`, restricted
to its effect on the session record: with no credentials it returns early
(message only); otherwise it calls `clear_trade_data()` and sets
`conversation_state = None`.  `if not user_context.account_credentials`
is Python truthiness on the credentials dict, which once set always holds
both keys, so `none` is the only falsy case. -/
def handle_main_menu (ctx : UserContext) : UserContext :=
  if ctx.account_credentials = none then ctx
  else { clear_trade_data ctx with conversation_state := none }

/-! ## Stop-loss free-text input handler (src/callbacks/stoploss.py) -/

/-- Python `str.strip()` (src/callbacks/stoploss.py line 245): drop
whitespace from both ends. -/
def pyStrip (s : String) : String :=
  String.mk
    (((s.toList.dropWhile Char.isWhitespace).reverse.dropWhile
      Char.isWhitespace).reverse)

/-- src/callbacks/stoploss.py lines 225-303, `handle_stoploss_input`,
restricted to its effect on the session record.  Flow of the source:
ignore the message unless the conversation state is one of the four
stop-loss input states; strip the text; validate it as a percentage in
the `*_PCT` states and as a price otherwise; on invalid input reply and
return (no session write); on valid input store the value under the
state's `temp_data` key and advance the state (to the limit-input state
after a trigger, to `None` ahead of the confirmation prompt after a
limit). -/
def handle_stoploss_input (ctx : UserContext) (text : String) : UserContext :=
  let state := ctx.conversation_state
  if state ∉ ([some STATE_AWAITING_SL_TRIGGER_PCT, some STATE_AWAITING_SL_LIMIT_PCT,
      some STATE_AWAITING_SL_TRIGGER_NUM, some STATE_AWAITING_SL_LIMIT_NUM] :
      List (Option String)) then
    ctx
  else
    let user_input := pyStrip text
    let validated :=
      if state = some STATE_AWAITING_SL_TRIGGER_PCT ∨
          state = some STATE_AWAITING_SL_LIMIT_PCT then
        validate_percentage user_input
      else
        validate_price user_input
    match validated with
    | (false, _, _) => ctx
    | (true, none, _) => ctx
    | (true, some value, _) =>
      if state = some STATE_AWAITING_SL_TRIGGER_PCT then
        { ctx with
          temp_data := tdSet ctx.temp_data "sl_trigger_pct" (.num value)
          conversation_state := some STATE_AWAITING_SL_LIMIT_PCT }
      else if state = some STATE_AWAITING_SL_LIMIT_PCT then
        { ctx with
          temp_data := tdSet ctx.temp_data "sl_limit_pct" (.num value)
          conversation_state := none }
      else if state = some STATE_AWAITING_SL_TRIGGER_NUM then
        { ctx with
          temp_data := tdSet ctx.temp_data "sl_trigger_price" (.num value)
          conversation_state := some STATE_AWAITING_SL_LIMIT_NUM }
      else
        { ctx with
          temp_data := tdSet ctx.temp_data "sl_limit_price" (.num value)
          conversation_state := none }

/-! ## HTTP request model (src/delta_api/client.py)

`DeltaClient.get/post/delete` build one HTTP request each; the request
is modelled by its method, path, query parameters and JSON body fields,
and the exchange by a response function.  Each embedded API method also
returns the list of requests it issued, in order, so that "no request is
sent" / "the call leg is not cancelled" are statable. -/

inductive HttpMethod
  | GET
  | POST
  | DELETE
deriving DecidableEq, Repr

/-- A JSON scalar appearing in a request body. -/
inductive JVal
  | jInt (n : ℤ)
  | jStr (s : String)
  | jBool (b : Bool)
deriving DecidableEq, Repr

structure HttpRequest where
  method : HttpMethod
  path : String
  queryParams : List (String × String)
  body : List (String × JVal)
deriving DecidableEq, Repr

/-! ## Order placement (src/delta_api/orders.py)

An order response dict is reduced to the fields the claims inspect: the
exchange's order id.  The response envelope (`'result' in response`) is
an `Option`; a raised exception is the `Except.error` case, carrying the
exception text. -/

structure OrderResult where
  id : ℤ
deriving DecidableEq, Repr

/-- The exchange as seen through `DeltaClient`: a response for every
request, either a parsed JSON body (whose `result` field may be absent)
or a raised exception. -/
def OrderClient : Type := HttpRequest → Except String (Option OrderResult)

/-- src/delta_api/orders.py lines 18-49, `OrderAPI.place_market_order`:
build the body, POST `/v2/orders`, return `response['result']` when
present, raise `ValueError` otherwise; any exception propagates
(`except ... raise`).  The issued-request trace is returned alongside. -/
def place_market_order (client : OrderClient) (product_id : ℤ) (side : String)
    (size : ℤ) : Except String OrderResult × List HttpRequest :=
  let req : HttpRequest :=
    { method := .POST
      path := "/v2/orders"
      queryParams := []
      body := [("product_id", .jInt product_id), ("side", .jStr side),
               ("size", .jInt size), ("order_type", .jStr ORDER_TYPE_MARKET)] }
  match client req with
  | .error e => (.error e, [req])
  | .ok none => (.error "Invalid order response", [req])
  | .ok (some order) => (.ok order, [req])

/-- src/delta_api/orders.py lines 51-85, `OrderAPI.place_limit_order`:
as `place_market_order` with a limit price (sent as a string). -/
def place_limit_order (client : OrderClient) (product_id : ℤ) (side : String)
    (size : ℤ) (limit_price : ℚ) : Except String OrderResult × List HttpRequest :=
  let req : HttpRequest :=
    { method := .POST
      path := "/v2/orders"
      queryParams := []
      body := [("product_id", .jInt product_id), ("side", .jStr side),
               ("size", .jInt size), ("order_type", .jStr ORDER_TYPE_LIMIT),
               ("limit_price", .jStr (toString limit_price))] }
  match client req with
  | .error e => (.error e, [req])
  | .ok none => (.error "Invalid order response", [req])
  | .ok (some order) => (.ok order, [req])

/-- src/delta_api/orders.py lines 87-127, `OrderAPI.place_stop_loss_order`:
a limit order tagged `stop_loss_order` with a trigger price and
`reduce_only`. -/
def place_stop_loss_order (client : OrderClient) (product_id : ℤ)
    (side : String) (size : ℤ) (stop_price limit_price : ℚ)
    (reduce_only : Bool := true) :
    Except String OrderResult × List HttpRequest :=
  let req : HttpRequest :=
    { method := .POST
      path := "/v2/orders"
      queryParams := []
      body := [("product_id", .jInt product_id), ("side", .jStr side),
               ("size", .jInt size), ("order_type", .jStr ORDER_TYPE_LIMIT),
               ("limit_price", .jStr (toString limit_price)),
               ("stop_order_type", .jStr STOP_ORDER_TYPE_SL),
               ("stop_price", .jStr (toString stop_price)),
               ("reduce_only", .jBool reduce_only)] }
  match client req with
  | .error e => (.error e, [req])
  | .ok none => (.error "Invalid order response", [req])
  | .ok (some order) => (.ok order, [req])

/-- src/delta_api/orders.py lines 129-169, `OrderAPI.place_take_profit_order`:
as the stop-loss order with `stop_order_type = take_profit_order`. -/
def place_take_profit_order (client : OrderClient) (product_id : ℤ)
    (side : String) (size : ℤ) (stop_price limit_price : ℚ)
    (reduce_only : Bool := true) :
    Except String OrderResult × List HttpRequest :=
  let req : HttpRequest :=
    { method := .POST
      path := "/v2/orders"
      queryParams := []
      body := [("product_id", .jInt product_id), ("side", .jStr side),
               ("size", .jInt size), ("order_type", .jStr ORDER_TYPE_LIMIT),
               ("limit_price", .jStr (toString limit_price)),
               ("stop_order_type", .jStr STOP_ORDER_TYPE_TP),
               ("stop_price", .jStr (toString stop_price)),
               ("reduce_only", .jBool reduce_only)] }
  match client req with
  | .error e => (.error e, [req])
  | .ok none => (.error "Invalid order response", [req])
  | .ok (some order) => (.ok order, [req])

/-- The successful result of `place_straddle_orders`
(src/delta_api/orders.py lines 305-309): both orders and
`success: True`. -/
structure StraddleResult where
  call_order : OrderResult
  put_order : OrderResult
  success : Bool
deriving DecidableEq, Repr

/-- src/delta_api/orders.py lines 284-318, `OrderAPI.place_straddle_orders`:
place the call leg as a market order, then the put leg; on success return
both orders.  The `except` block only logs and re-raises, so the first
exception propagates unchanged and no further request (in particular no
cancellation) is issued. -/
def place_straddle_orders (client : OrderClient) (call_product_id
    put_product_id : ℤ) (side : String) (size : ℤ) :
    Except String StraddleResult × List HttpRequest :=
  match place_market_order client call_product_id side size with
  | (.error e, t1) => (.error e, t1)
  | (.ok call_order, t1) =>
    match place_market_order client put_product_id side size with
    | (.error e, t2) => (.error e, t1 ++ t2)
    | (.ok put_order, t2) =>
      (.ok { call_order := call_order, put_order := put_order,
             success := true }, t1 ++ t2)

/-- One element of the `orders` argument of `place_batch_stop_orders`
(src/delta_api/orders.py lines 325-331): the five dict keys it reads. -/
structure StopOrderSpec where
  product_id : ℤ
  side : String
  size : ℤ
  stop_price : ℚ
  limit_price : ℚ
deriving DecidableEq, Repr

/-- One element of the result list of `place_batch_stop_orders`
(src/delta_api/orders.py lines 358-370). -/
structure BatchResult where
  success : Bool
  order : Option OrderResult
  error : Option String
  product_id : ℤ
deriving DecidableEq, Repr

/-- The per-item body of the loop in `place_batch_stop_orders`
(src/delta_api/orders.py lines 340-370): place one stop-loss or
take-profit order and fold the outcome into a `{success, order|error,
product_id}` entry. -/
def batch_place_one (client : OrderClient) (order_type : String)
    (od : StopOrderSpec) : BatchResult × List HttpRequest :=
  let (result, tr) :=
    if order_type = "stop_loss" then
      place_stop_loss_order client od.product_id od.side od.size
        od.stop_price od.limit_price
    else
      place_take_profit_order client od.product_id od.side od.size
        od.stop_price od.limit_price
  match result with
  | .ok o =>
    ({ success := true, order := some o, error := none,
       product_id := od.product_id }, tr)
  | .error e =>
    ({ success := false, order := none, error := some e,
       product_id := od.product_id }, tr)

/-- src/delta_api/orders.py lines 320-375, `OrderAPI.place_batch_stop_orders`:
iterate over the input list, appending one result per order; the
`try/except` around each placement turns an exception into a
`success: False` entry and continues with the next order. -/
def place_batch_stop_orders (client : OrderClient)
    (orders : List StopOrderSpec) (order_type : String := "stop_loss") :
    List BatchResult × List HttpRequest :=
  orders.foldl
    (fun acc od =>
      let (r, tr) := batch_place_one client order_type od
      (acc.1 ++ [r], acc.2 ++ tr))
    ([], [])

/-! ## Position listing (src/delta_api/positions.py)

The positions response carries an opaque list of position dicts; only
the envelope and the issued requests matter to the claims, so the
payload type is a parameter-free stand-in record. -/

structure PositionData where
  product_id : ℤ
  size : ℤ
deriving DecidableEq, Repr

def PositionClient : Type :=
  HttpRequest → Except String (Option (List PositionData))

/-- The single-request branch of `get_positions`
(src/delta_api/positions.py lines 38-60): issue GET `/v2/positions` with
the given query parameters; return `response['result']` when present,
`[]` otherwise; exceptions propagate. -/
def get_positions_request (client : PositionClient)
    (params : List (String × String)) :
    Except String (List PositionData) × List HttpRequest :=
  let req : HttpRequest :=
    { method := .GET
      path := "/v2/positions"
      queryParams := params
      body := [] }
  match client req with
  | .error e => (.error e, [req])
  | .ok none => (.ok [], [req])
  | .ok (some positions) => (.ok positions, [req])

/-- The no-filter branch of `get_positions`
(src/delta_api/positions.py lines 45-50): recurse once with
`underlying_asset='BTC'` and once with `'ETH'` (each recursive call lands
in the `elif` branch, i.e. one `?underlying_asset_symbol=` request) and
concatenate the two result lists; the first exception propagates. -/
def get_positions_btc_eth (client : PositionClient) :
    Except String (List PositionData) × List HttpRequest :=
  match get_positions_request client [("underlying_asset_symbol", "BTC")],
      get_positions_request client [("underlying_asset_symbol", "ETH")] with
  | (.error e, t1), _ => (.error e, t1)
  | (.ok _, t1), (.error e, t2) => (.error e, t1 ++ t2)
  | (.ok btc, t1), (.ok eth, t2) => (.ok (btc ++ eth), t1 ++ t2)

/-- src/delta_api/positions.py lines 21-64, `PositionAPI.get_positions`:
`if product_id:` (Python truthiness, so a zero id is falsy) sends
`?product_id=...`; `elif underlying_asset:` sends
`?underlying_asset_symbol=...`; with neither filter truthy it falls into
the combined BTC+ETH branch. -/
def get_positions (client : PositionClient) (product_id : Option ℤ)
    (underlying_asset : Option String) :
    Except String (List PositionData) × List HttpRequest :=
  match product_id, underlying_asset with
  | some pid, ua =>
    if pid ≠ 0 then
      get_positions_request client [("product_id", toString pid)]
    else
      match ua with
      | some u =>
        if u ≠ "" then
          get_positions_request client [("underlying_asset_symbol", u)]
        else get_positions_btc_eth client
      | none => get_positions_btc_eth client
  | none, some u =>
    if u ≠ "" then
      get_positions_request client [("underlying_asset_symbol", u)]
    else get_positions_btc_eth client
  | none, none => get_positions_btc_eth client

/-! ## `sorted(set(...))` (used at src/delta_api/products.py line 336) -/

/-- Ordered insertion that drops an element already present: building
block for Python `sorted(set(l))`. -/
def insertUnique [LinearOrder α] (x : α) : List α → List α
  | [] => [x]
  | y :: ys =>
    if x < y then x :: y :: ys
    else if x = y then y :: ys
    else y :: insertUnique x ys

/-- Python `sorted(set(l))`: the distinct elements of `l` in strictly
ascending order. -/
def sortedSet [LinearOrder α] (l : List α) : List α :=
  l.foldr insertUnique []

/-! ## ATM strike selection -/

/-- src/utils/helpers.py lines 8-24, `calculate_atm_strike`:
`min(available_strikes, key=lambda x: abs(x - spot_price))`, raising
`ValueError` on an empty list. -/
def calculate_atm_strike (spot_price : ℚ) (available_strikes : List ℚ) :
    Except String ℚ :=
  match available_strikes with
  | [] => .error "No available strikes provided"
  | x :: xs => .ok (pyMinBy (fun y => |y - spot_price|) x xs)

/-- src/delta_api/products.py lines 336-337 (`ProductAPI.find_atm_options`):
`all_strikes = sorted(set(strikes)); atm_strike = min(all_strikes,
key=lambda x: abs(x - spot_price))`, given the strikes of the call side. -/
def find_atm_strike (spot_price : ℚ) (strikes : List ℚ) : Option ℚ :=
  match sortedSet strikes with
  | [] => none
  | x :: xs => some (pyMinBy (fun y => |y - spot_price|) x xs)

/-! ## Available expiries (src/delta_api/products.py lines 103-159)

`get_available_expiries` parses each product's `settlement_time`
(an ISO 8601 string like "2025-10-24T04:00:00Z", or already a numeric
timestamp), keys a dict by the resulting unix timestamp in seconds, and
returns the dict's values sorted ascending by timestamp.  Each returned
entry is determined by its timestamp, so the embedding returns the
timestamps.  `datetime.fromisoformat(s.replace('Z', '+00:00'))` followed
by `int(dt.timestamp())` is modelled for UTC-marked strings of the form
`YYYY-MM-DDTHH:MM:SS` followed by `Z` or `+00:00`; a string the model
rejects is one the source skips via its `except (ValueError, TypeError)`
branch (naive strings without a UTC marker, which would depend on the
host timezone, do not occur in the exchange's data and are out of
scope). -/

/-- Digit value of a character, `none` for a non-digit. -/
def digitVal (c : Char) : Option ℕ :=
  if c.isDigit then some (c.toNat - 48) else none

/-- Two-digit field. -/
def twoDigits (a b : Char) : Option ℕ :=
  match digitVal a, digitVal b with
  | some x, some y => some (10 * x + y)
  | _, _ => none

/-- Gregorian leap year. -/
def isLeapYear (y : ℤ) : Bool :=
  (y % 4 = 0 ∧ y % 100 ≠ 0) ∨ y % 400 = 0

/-- Days in a month of a given year. -/
def daysInMonth (y m : ℤ) : ℤ :=
  if m = 2 then (if isLeapYear y then 29 else 28)
  else if m = 4 ∨ m = 6 ∨ m = 9 ∨ m = 11 then 30
  else 31

/-- Days from the civil epoch 1970-01-01 to `y-m-d` (Gregorian),
Hinnant's `days_from_civil`; used for years ≥ 1, where every division
below is on a nonnegative value. -/
def daysFromCivil (y m d : ℤ) : ℤ :=
  let y' := y - (if m ≤ 2 then 1 else 0)
  let era := y' / 400
  let yoe := y' - era * 400
  let doy := (153 * (m + (if m > 2 then -3 else 9)) + 2) / 5 + d - 1
  let doe := yoe * 365 + yoe / 4 - yoe / 100 + doy
  era * 146097 + doe - 719468

/-- Unix timestamp (seconds) of a UTC-marked ISO 8601 string
`YYYY-MM-DDTHH:MM:SS` + (`Z` | `+00:00`); `none` models the
`ValueError` of `datetime.fromisoformat`. -/
def isoUtcTimestamp (s : String) : Option ℤ :=
  match s.toList with
  | y1 :: y2 :: y3 :: y4 :: '-' :: m1 :: m2 :: '-' :: d1 :: d2 :: 'T' ::
      h1 :: h2 :: ':' :: n1 :: n2 :: ':' :: s1 :: s2 :: rest =>
    if rest = [] ∨ rest = ['Z'] ∨ rest = ['+', '0', '0', ':', '0', '0'] then
      match twoDigits y1 y2, twoDigits y3 y4, twoDigits m1 m2,
          twoDigits d1 d2, twoDigits h1 h2, twoDigits n1 n2,
          twoDigits s1 s2 with
      | some yh, some yl, some mo, some da, some ho, some mi, some se =>
        let y : ℤ := 100 * yh + yl
        if 1 ≤ (mo : ℤ) ∧ (mo : ℤ) ≤ 12 ∧ 1 ≤ (da : ℤ) ∧
            (da : ℤ) ≤ daysInMonth y mo ∧ ho ≤ 23 ∧ mi ≤ 59 ∧ se ≤ 59 then
          some (daysFromCivil y mo da * 86400 + ho * 3600 + mi * 60 + se)
        else none
      | _, _, _, _, _, _, _ => none
    else none
  | _ => none

/-- A product's `settlement_time` field as read by
`get_available_expiries`: an ISO string or an already-numeric timestamp. -/
inductive SettlementVal
  | str (s : String)
  | num (n : ℤ)
deriving DecidableEq, Repr

/-- The `if settlement_time:` truthiness test
(src/delta_api/products.py line 129): `None`, the empty string and the
timestamp 0 are all falsy and skipped. -/
def settlement_truthy : Option SettlementVal → Bool
  | none => false
  | some (.str s) => s ≠ ""
  | some (.num n) => n ≠ 0

/-- src/delta_api/products.py lines 132-140: string settlement times are
parsed from ISO 8601, numeric ones are taken as-is; a parse failure hits
the `except (ValueError, TypeError)` branch. -/
def parse_settlement : SettlementVal → Option ℤ
  | .str s => isoUtcTimestamp s
  | .num n => some n

/-- The loop body of src/delta_api/products.py lines 127-149: skip falsy
or unparsable settlement times, and record a parsed timestamp unless the
`expiries` dict already holds that key. -/
def expiries_step (acc : List ℤ) (st : Option SettlementVal) : List ℤ :=
  if settlement_truthy st then
    match st with
    | some v =>
      match parse_settlement v with
      | some t => if t ∈ acc then acc else acc ++ [t]
      | none => acc
    | none => acc
  else acc

/-- src/delta_api/products.py lines 103-159,
`ProductAPI.get_available_expiries` after the catalog fetch: each product
contributes its (possibly absent) `settlement_time`; the collected
timestamps are returned sorted ascending. -/
def get_available_expiries (products : List (Option SettlementVal)) :
    List ℤ :=
  sortedSet (products.foldl expiries_step [])

/-- What the specification describes instead
(spec.md §4.2, `availableExpiries`): truncate each settlement time to
`(year, month, day, hour)` granularity BEFORE deduplicating.  Truncating
a unix timestamp to the hour is integer division by 3600; stated as its
own definition so it can be compared with the source's behaviour. -/
def get_available_expiries_spec (products : List (Option SettlementVal)) :
    List ℤ :=
  sortedSet ((products.foldl expiries_step []).map (fun t => t / 3600 * 3600))

/-! ## Shared lemmas -/

/-- Membership through `insertUnique`. -/
theorem mem_insertUnique [LinearOrder α] (x a : α) (l : List α) :
    a ∈ insertUnique x l ↔ a = x ∨ a ∈ l := by
  induction l with
  | nil => simp [insertUnique]
  | cons y ys ih =>
    by_cases hxy : x < y
    · simp [insertUnique, hxy]
    · by_cases hxe : x = y
      · subst hxe
        have hrw : insertUnique x (x :: ys) = x :: ys := by
          simp [insertUnique, hxy]
        rw [hrw]
        constructor
        · exact fun h => Or.inr h
        · rintro (rfl | h)
          · exact List.mem_cons_self _ _
          · exact h
      · simp only [insertUnique, if_neg hxy, if_neg hxe, List.mem_cons, ih]
        tauto

/-- `insertUnique` preserves strict sortedness. -/
theorem sorted_insertUnique [LinearOrder α] (x : α) {l : List α}
    (h : l.Sorted (· < ·)) : (insertUnique x l).Sorted (· < ·) := by
  induction l with
  | nil => simp [insertUnique]
  | cons y ys ih =>
    rw [List.sorted_cons] at h
    obtain ⟨hy, hys⟩ := h
    by_cases hxy : x < y
    · rw [insertUnique, if_pos hxy, List.sorted_cons]
      refine ⟨?_, List.sorted_cons.mpr ⟨hy, hys⟩⟩
      intro z hz
      rcases List.mem_cons.mp hz with rfl | hz
      · exact hxy
      · exact hxy.trans (hy z hz)
    · by_cases hxe : x = y
      · rw [insertUnique, if_neg hxy, if_pos hxe]
        exact List.sorted_cons.mpr ⟨hy, hys⟩
      · rw [insertUnique, if_neg hxy, if_neg hxe, List.sorted_cons]
        refine ⟨?_, ih hys⟩
        intro z hz
        rcases (mem_insertUnique x z ys).mp hz with rfl | hz
        · exact lt_of_le_of_ne (le_of_not_lt hxy) (Ne.symm hxe)
        · exact hy z hz

/-- Membership through `sortedSet`. -/
theorem mem_sortedSet [LinearOrder α] (a : α) (l : List α) :
    a ∈ sortedSet l ↔ a ∈ l := by
  induction l with
  | nil => simp [sortedSet]
  | cons y ys ih =>
    show a ∈ insertUnique y (sortedSet ys) ↔ _
    rw [mem_insertUnique, ih, List.mem_cons]

/-- `sortedSet` is strictly sorted. -/
theorem sorted_sortedSet [LinearOrder α] (l : List α) :
    (sortedSet l).Sorted (· < ·) := by
  induction l with
  | nil => simp [sortedSet]
  | cons y ys ih => exact sorted_insertUnique y ih

/-- Python `min(x :: xs, key=key)` on a strictly ascending list: the
result is an element, its key is minimal, and among equal keys it is the
least (leftmost) element. -/
theorem pyMinBy_sorted_spec (key : ℚ → ℚ) :
    ∀ (xs : List ℚ) (x : ℚ), (x :: xs).Sorted (· < ·) →
      pyMinBy key x xs ∈ x :: xs ∧
      (∀ s ∈ x :: xs, key (pyMinBy key x xs) ≤ key s) ∧
      (∀ s ∈ x :: xs, key s = key (pyMinBy key x xs) → pyMinBy key x xs ≤ s) := by
  intro xs
  induction xs with
  | nil =>
    intro x _
    refine ⟨List.mem_singleton.mpr rfl, ?_, ?_⟩
    · intro s hs
      rw [List.mem_singleton.mp hs]
      exact le_refl _
    · intro s hs _
      rw [List.mem_singleton.mp hs]
      exact le_refl x
  | cons y ys ih =>
    intro x h
    rw [List.sorted_cons] at h
    obtain ⟨hx, h2⟩ := h
    have hxy : x < y := hx y (List.mem_cons_self y ys)
    have hxys : ∀ z ∈ ys, x < z := fun z hz => hx z (List.mem_cons_of_mem y hz)
    have hsorted_y : (y :: ys).Sorted (· < ·) := h2
    rw [List.sorted_cons] at h2
    obtain ⟨hyys, hys⟩ := h2
    by_cases hc : key y < key x
    · -- the running minimum becomes y
      have hstep : pyMinBy key x (y :: ys) = pyMinBy key y ys := by
        simp only [pyMinBy, List.foldl_cons]
        rw [if_pos hc]
      obtain ⟨hmem, hmin, htie⟩ := ih y hsorted_y
      rw [hstep]
      refine ⟨List.mem_cons_of_mem x hmem, ?_, ?_⟩
      · intro s hs
        rcases List.mem_cons.mp hs with h5 | h5
        · rw [h5]
          exact le_of_lt (lt_of_le_of_lt (hmin y (List.mem_cons_self y ys)) hc)
        · exact hmin s h5
      · intro s hs hkey
        rcases List.mem_cons.mp hs with h5 | h5
        · exfalso
          have hlt : key (pyMinBy key y ys) < key s := by
            rw [h5]
            exact lt_of_le_of_lt (hmin y (List.mem_cons_self y ys)) hc
          exact absurd hkey.symm (ne_of_lt hlt)
        · exact htie s h5 hkey
    · -- the running minimum stays x
      have hstep : pyMinBy key x (y :: ys) = pyMinBy key x ys := by
        simp only [pyMinBy, List.foldl_cons]
        rw [if_neg hc]
      have hsorted_x : (x :: ys).Sorted (· < ·) :=
        List.sorted_cons.mpr ⟨hxys, hys⟩
      obtain ⟨hmem, hmin, htie⟩ := ih x hsorted_x
      rw [hstep]
      refine ⟨?_, ?_, ?_⟩
      · rcases List.mem_cons.mp hmem with h5 | h5
        · rw [h5]
          exact List.mem_cons_self x (y :: ys)
        · exact List.mem_cons_of_mem x (List.mem_cons_of_mem y h5)
      · intro s hs
        rcases List.mem_cons.mp hs with h5 | h5
        · rw [h5]
          exact hmin x (List.mem_cons_self x ys)
        · rcases List.mem_cons.mp h5 with h6 | h6
          · rw [h6]
            exact (hmin x (List.mem_cons_self x ys)).trans (le_of_not_lt hc)
          · exact hmin s (List.mem_cons_of_mem x h6)
      · intro s hs hkey
        rcases List.mem_cons.mp hs with h5 | h5
        · rw [h5] at hkey ⊢
          exact htie x (List.mem_cons_self x ys) hkey
        · rcases List.mem_cons.mp h5 with h6 | h6
          · -- s = y while the key minimum already equals key x
            have h1 : key (pyMinBy key x ys) ≤ key x :=
              hmin x (List.mem_cons_self x ys)
            have h2 : key x ≤ key s := by
              rw [h6]
              exact le_of_not_lt hc
            have h3 : key x = key (pyMinBy key x ys) :=
              le_antisymm (hkey ▸ h2) h1
            have h4 : pyMinBy key x ys ≤ x :=
              htie x (List.mem_cons_self x ys) h3
            rcases List.mem_cons.mp hmem with h7 | h7
            · rw [h7, h6]
              exact le_of_lt hxy
            · exact absurd h4 (not_le_of_lt (hxys _ h7))
          · exact htie s (List.mem_cons_of_mem x h6) hkey

/-- Unrolling the batch fold: results and traces accumulate per item. -/
theorem batch_foldl_general (client : OrderClient) (kind : String) :
    ∀ (orders : List StopOrderSpec) (acc : List BatchResult × List HttpRequest),
      orders.foldl
        (fun acc od =>
          let (r, tr) := batch_place_one client kind od
          (acc.1 ++ [r], acc.2 ++ tr)) acc =
      (acc.1 ++ orders.map (fun od => (batch_place_one client kind od).1),
       acc.2 ++ (orders.map (fun od => (batch_place_one client kind od).2)).flatten) := by
  intro orders
  induction orders with
  | nil => intro acc; simp
  | cons od rest ih =>
    intro acc
    rw [List.foldl_cons, ih]
    rcases hbp : batch_place_one client kind od with ⟨r, tr⟩
    simp [hbp, List.append_assoc]

/-- Membership in one `expiries_step` application. -/
theorem mem_expiries_step (acc : List ℤ) (st : Option SettlementVal) (t : ℤ) :
    t ∈ expiries_step acc st ↔
      t ∈ acc ∨ ∃ v, st = some v ∧ settlement_truthy (some v) = true ∧
        parse_settlement v = some t := by
  cases st with
  | none => simp [expiries_step, settlement_truthy]
  | some v =>
    by_cases ht : settlement_truthy (some v) = true
    · cases hp : parse_settlement v with
      | none => simp [expiries_step, ht, hp]
      | some u =>
        by_cases hmem : u ∈ acc
        · simp only [expiries_step, ht, if_true, hp, if_pos hmem,
            Option.some.injEq]
          constructor
          · exact fun h => Or.inl h
          · rintro (h | ⟨v', hv', _, hut⟩)
            · exact h
            · obtain rfl := hv'
              rw [hp] at hut
              exact (Option.some.inj hut) ▸ hmem
        · simp only [expiries_step, ht, if_true, hp, if_neg hmem,
            Option.some.injEq, List.mem_append, List.mem_singleton]
          constructor
          · rintro (h | h)
            · exact Or.inl h
            · refine Or.inr ⟨v, rfl, ht, ?_⟩
              rw [hp, h]
          · rintro (h | ⟨v', hv', _, hut⟩)
            · exact Or.inl h
            · obtain rfl := hv'
              rw [hp] at hut
              exact Or.inr (Option.some.inj hut).symm
    · rw [expiries_step, if_neg ht]
      constructor
      · exact fun h => Or.inl h
      · rintro (h | ⟨v', hv', htv, _⟩)
        · exact h
        · obtain rfl := Option.some.inj hv'
          exact absurd htv ht

/-- Membership in the collected (pre-sort) expiry timestamps. -/
theorem mem_foldl_expiries_step :
    ∀ (ps : List (Option SettlementVal)) (acc : List ℤ) (t : ℤ),
      t ∈ ps.foldl expiries_step acc ↔
        t ∈ acc ∨ ∃ v, some v ∈ ps ∧ settlement_truthy (some v) = true ∧
          parse_settlement v = some t := by
  intro ps
  induction ps with
  | nil => simp
  | cons st rest ih =>
    intro acc t
    rw [List.foldl_cons, ih, mem_expiries_step]
    constructor
    · rintro ((h | ⟨v, hv, htv, hpv⟩) | ⟨v, hv, htv, hpv⟩)
      · exact Or.inl h
      · exact Or.inr ⟨v, by rw [← hv]; exact List.mem_cons_self st rest, htv, hpv⟩
      · exact Or.inr ⟨v, List.mem_cons_of_mem st hv, htv, hpv⟩
    · rintro (h | ⟨v, hv, htv, hpv⟩)
      · exact Or.inl (Or.inl h)
      · rcases List.mem_cons.mp hv with hv1 | hv2
        · exact Or.inl (Or.inr ⟨v, hv1.symm, htv, hpv⟩)
        · exact Or.inr ⟨v, hv2, htv, hpv⟩

/-- The single positions request always carries exactly the given query
parameters. -/
theorem get_positions_request_trace (client : PositionClient)
    (params : List (String × String)) :
    (get_positions_request client params).2 =
      [{ method := .GET, path := "/v2/positions", queryParams := params,
         body := [] }] := by
  rcases h : client ⟨HttpMethod.GET, "/v2/positions", params, []⟩ with e | o
  · simp [get_positions_request, h]
  · cases o <;> simp [get_positions_request, h]

/-- The mantissa-range walk stops immediately on an in-range value. -/
theorem frexpAux_eq_self (fuel : ℕ) (a : ℚ) (e : ℤ)
    (h1 : 2 ^ 52 ≤ a) (h2 : a < 2 ^ 53) : frexpAux fuel a e = (a, e) := by
  cases fuel with
  | zero => rfl
  | succ f =>
    simp only [frexpAux]
    rw [if_neg (not_lt_of_le h1), if_neg (not_le_of_lt h2)]

/-- Closed form of the walk for a positive value that reaches the
mantissa range after `k` doublings. -/
theorem frexpAux_scale_up :
    ∀ (k fuel : ℕ) (a : ℚ) (e : ℤ), k ≤ fuel → 0 < a →
      2 ^ 52 ≤ a * 2 ^ k → a * 2 ^ k < 2 ^ 53 →
      frexpAux fuel a e = (a * 2 ^ k, e - k) := by
  intro k
  induction k with
  | zero =>
    intro fuel a e _ _ h1 h2
    rw [pow_zero, mul_one] at h1 h2
    rw [frexpAux_eq_self fuel a e h1 h2]
    simp
  | succ k ih =>
    intro fuel a e hk ha h1 h2
    cases fuel with
    | zero => omega
    | succ f =>
      have h2k : (2 : ℚ) ≤ 2 ^ (k + 1) := by
        calc (2 : ℚ) = 2 ^ 1 := (pow_one 2).symm
        _ ≤ 2 ^ (k + 1) := pow_le_pow_right₀ (by norm_num) (by omega)
      have hlt : a < 2 ^ 52 := by
        have hle : a * 2 ≤ a * 2 ^ (k + 1) :=
          mul_le_mul_of_nonneg_left h2k (le_of_lt ha)
        have hlt53 : a * 2 < 2 ^ 53 := lt_of_le_of_lt hle h2
        have h53 : (2 : ℚ) ^ 53 = 2 * 2 ^ 52 := by norm_num
        linarith
      simp only [frexpAux]
      rw [if_pos hlt]
      have hmul : a * 2 * 2 ^ k = a * 2 ^ (k + 1) := by ring
      have := ih f (a * 2) (e - 1) (by omega) (by positivity)
        (by rw [hmul]; exact h1) (by rw [hmul]; exact h2)
      rw [this, hmul]
      congr 1
      push_cast
      ring

/-- Rounding a positive rational whose mantissa range is reached after
`k` doublings: scale up, round the mantissa, scale back. -/
theorem roundF64_pos_eq (q : ℚ) (k : ℕ) (hq : 0 < q) (hk : k ≤ 4000)
    (h1 : 2 ^ 52 ≤ q * 2 ^ k) (h2 : q * 2 ^ k < 2 ^ 53) :
    roundF64 q = (roundHalfEvenQ (q * 2 ^ k) : ℚ) / 2 ^ k := by
  have hfa := frexpAux_scale_up k 4000 q 0 hk hq h1 h2
  simp only [roundF64]
  rw [if_neg (ne_of_gt hq)]
  simp only [if_neg (not_lt_of_le (le_of_lt hq))]
  rw [hfa]
  simp only [one_mul, zero_sub]
  rw [zpow_neg, zpow_natCast, div_eq_mul_inv]

/-- The double nearest 10/100. -/
theorem roundF64_pct10 :
    roundF64 (10 / 100) = 3602879701896397 / 36028797018963968 := by
  rw [roundF64_pos_eq (10 / 100) 56 (by norm_num) (by norm_num)
    (by norm_num) (by norm_num)]
  norm_num [roundHalfEvenQ]

/-- The double nearest 5/100. -/
theorem roundF64_pct5 :
    roundF64 (5 / 100) = 3602879701896397 / 72057594037927936 := by
  rw [roundF64_pos_eq (5 / 100) 57 (by norm_num) (by norm_num)
    (by norm_num) (by norm_num)]
  norm_num [roundHalfEvenQ]

/-- The double nearest 1 + fl(0.1), i.e. fl(1.1). -/
theorem roundF64_one_plus_pct10 :
    roundF64 (1 + 3602879701896397 / 36028797018963968) =
      2476979795053773 / 2251799813685248 := by
  rw [roundF64_pos_eq _ 52 (by norm_num) (by norm_num)
    (by norm_num) (by norm_num)]
  norm_num [roundHalfEvenQ]

/-- The double nearest 1 - fl(0.1), i.e. fl(0.9). -/
theorem roundF64_one_sub_pct10 :
    roundF64 (1 - 3602879701896397 / 36028797018963968) =
      8106479329266893 / 9007199254740992 := by
  rw [roundF64_pos_eq _ 53 (by norm_num) (by norm_num)
    (by norm_num) (by norm_num)]
  norm_num [roundHalfEvenQ]

/-- The double nearest 1 + fl(0.05), i.e. fl(1.05). -/
theorem roundF64_one_plus_pct5 :
    roundF64 (1 + 3602879701896397 / 72057594037927936) =
      4728779608739021 / 4503599627370496 := by
  rw [roundF64_pos_eq _ 52 (by norm_num) (by norm_num)
    (by norm_num) (by norm_num)]
  norm_num [roundHalfEvenQ]

/-- The double nearest 1 - fl(0.05), i.e. fl(0.95). -/
theorem roundF64_one_sub_pct5 :
    roundF64 (1 - 3602879701896397 / 72057594037927936) =
      4278419646001971 / 4503599627370496 := by
  rw [roundF64_pos_eq _ 53 (by norm_num) (by norm_num)
    (by norm_num) (by norm_num)]
  norm_num [roundHalfEvenQ]

/-- fl(100000 · fl(1.1)) lands one ulp above 110000. -/
theorem roundF64_target10_long :
    roundF64 (100000 * (2476979795053773 / 2251799813685248)) =
      7559142440960001 / 68719476736 := by
  rw [roundF64_pos_eq _ 36 (by norm_num) (by norm_num)
    (by norm_num) (by norm_num)]
  norm_num [roundHalfEvenQ]

/-- fl(100000 · fl(0.9)) is exactly 90000. -/
theorem roundF64_target10_short :
    roundF64 (100000 * (8106479329266893 / 9007199254740992)) = 90000 := by
  rw [roundF64_pos_eq _ 36 (by norm_num) (by norm_num)
    (by norm_num) (by norm_num)]
  norm_num [roundHalfEvenQ]

/-- fl(100000 · fl(0.95)) is exactly 95000. -/
theorem roundF64_stop5_long :
    roundF64 (100000 * (4278419646001971 / 4503599627370496)) = 95000 := by
  rw [roundF64_pos_eq _ 36 (by norm_num) (by norm_num)
    (by norm_num) (by norm_num)]
  norm_num [roundHalfEvenQ]

/-- fl(100000 · fl(1.05)) is exactly 105000. -/
theorem roundF64_stop5_short :
    roundF64 (100000 * (4728779608739021 / 4503599627370496)) = 105000 := by
  rw [roundF64_pos_eq _ 36 (by norm_num) (by norm_num)
    (by norm_num) (by norm_num)]
  norm_num [roundHalfEvenQ]

/-! ## Claim theorems -/

/-- C4 counterexample: the claimed instance `targetPrice = 110000.0` at
entry 100000, pct 10, long is false of the program.  The source
evaluates `100000 * (1 + 10/100)` in IEEE-754 binary64, which yields
7559142440960001/2^36 = 110000.000000000014551915228366851806640625 —
one unit in the last place above 110000, not 110000. -/
theorem C4_counterexample_long_target_one_ulp_above :
    calculate_target_price_from_percentage_f64 100000 10 true =
      7559142440960001 / 68719476736 ∧
    calculate_target_price_from_percentage_f64 100000 10 true ≠ 110000 ∧
    110000 < calculate_target_price_from_percentage_f64 100000 10 true ∧
    calculate_target_price_from_percentage_f64 100000 10 true - 110000 =
      1 / 68719476736 := by
  have h : calculate_target_price_from_percentage_f64 100000 10 true =
      7559142440960001 / 68719476736 := by
    rw [calculate_target_price_from_percentage_f64, if_pos rfl,
      roundF64_pct10, roundF64_one_plus_pct10, roundF64_target10_long]
  refine ⟨h, ?_, ?_, ?_⟩ <;>
    · rw [h]
      norm_num

/-- C4 (amended): the stop price is computed by the formula
`entry*(1 - pct/100)` for long and `entry*(1 + pct/100)` for short, and
the target price by `entry*(1 + pct/100)` for long and
`entry*(1 - pct/100)` for short (exact as formulas); evaluated in the
source's IEEE-754 binary64 arithmetic, entry 100000 with pct 5 gives
stop exactly 95000 (long) and 105000 (short) and pct 10 gives target
exactly 90000 (short), while the long target is 110000 + 2^-36
(110000.00000000001…), one ulp above 110000 rather than exactly
110000. -/
theorem C4_amended_price_formulas_and_float_instances :
    (∀ entry pct : ℚ,
      calculate_stop_price_from_percentage entry pct true =
        entry * (1 - pct / 100) ∧
      calculate_stop_price_from_percentage entry pct false =
        entry * (1 + pct / 100) ∧
      calculate_target_price_from_percentage entry pct true =
        entry * (1 + pct / 100) ∧
      calculate_target_price_from_percentage entry pct false =
        entry * (1 - pct / 100)) ∧
    calculate_stop_price_from_percentage_f64 100000 5 true = 95000 ∧
    calculate_stop_price_from_percentage_f64 100000 5 false = 105000 ∧
    calculate_target_price_from_percentage_f64 100000 10 false = 90000 ∧
    calculate_target_price_from_percentage_f64 100000 10 true =
      110000 + 1 / 68719476736 := by
  refine ⟨fun entry pct => ⟨rfl, rfl, rfl, rfl⟩, ?_, ?_, ?_, ?_⟩
  · rw [calculate_stop_price_from_percentage_f64, if_pos rfl,
      roundF64_pct5, roundF64_one_sub_pct5, roundF64_stop5_long]
  · rw [calculate_stop_price_from_percentage_f64, if_neg (by simp),
      roundF64_pct5, roundF64_one_plus_pct5, roundF64_stop5_short]
  · rw [calculate_target_price_from_percentage_f64, if_neg (by simp),
      roundF64_pct10, roundF64_one_sub_pct10, roundF64_target10_short]
  · rw [calculate_target_price_from_percentage_f64, if_pos rfl,
      roundF64_pct10, roundF64_one_plus_pct10, roundF64_target10_long]
    norm_num

/-- C9: wherever a protective order is derived from a position, the
order side is `sell` exactly when the position size is strictly
positive and `buy` otherwise; the side agrees with mapping
`determine_position_side` through long ↦ sell / short ↦ buy; and
size +5 yields `sell`, size -3 yields `buy`. -/
theorem C9_protective_side_from_position_sign :
    (∀ size : ℤ,
      (protective_order_side size = SIDE_SELL ↔ 0 < size) ∧
      (protective_order_side size = SIDE_BUY ↔ ¬ 0 < size) ∧
      protective_order_side size =
        (if determine_position_side size = "long" then SIDE_SELL
         else SIDE_BUY)) ∧
    protective_order_side 5 = "sell" ∧
    protective_order_side (-3) = "buy" := by
  refine ⟨?_, by decide, by decide⟩
  intro size
  by_cases h : 0 < size
  · refine ⟨?_, ?_, ?_⟩
    · simp [protective_order_side, h]
    · simp only [protective_order_side, if_pos h, SIDE_SELL, SIDE_BUY]
      constructor
      · intro hsb
        exact absurd hsb (by decide)
      · intro hns
        exact absurd h hns
    · simp [protective_order_side, determine_position_side, h]
  · refine ⟨?_, ?_, ?_⟩
    · simp only [protective_order_side, if_neg h, SIDE_SELL, SIDE_BUY]
      constructor
      · intro hbs
        exact absurd hbs (by decide)
      · intro hp
        exact absurd hp h
    · simp [protective_order_side, h]
    · simp [protective_order_side, determine_position_side, h]

/-- C3: ATM strike selection over the call-side strike set picks a
strike of the set whose distance to spot is minimal, and on equal
distances the lower strike, with `calculate_atm_strike` agreeing on the
sorted strike set; in particular strikes {50000, 50500} with spot 50250
select 50000. -/
theorem C3_atm_strike_minimises_distance_with_low_tie_break :
    (∀ (spot : ℚ) (strikes : List ℚ), strikes ≠ [] →
      ∃ r, find_atm_strike spot strikes = some r ∧ r ∈ strikes ∧
        (∀ s ∈ strikes, |r - spot| ≤ |s - spot|) ∧
        (∀ s ∈ strikes, |s - spot| = |r - spot| → r ≤ s)) ∧
    (∀ (spot : ℚ) (strikes : List ℚ),
      calculate_atm_strike spot (sortedSet strikes) =
        (match find_atm_strike spot strikes with
         | some r => .ok r
         | none => .error "No available strikes provided")) ∧
    find_atm_strike 50250 [50000, 50500] = some 50000 := by
  refine ⟨?_, ?_,
    by norm_num [find_atm_strike, sortedSet, insertUnique, pyMinBy]⟩
  · intro spot strikes hne
    have hsorted := sorted_sortedSet (α := ℚ) strikes
    rcases hss : sortedSet strikes with _ | ⟨x, xs⟩
    · exfalso
      rcases strikes with _ | ⟨a, rest⟩
      · exact hne rfl
      · have : a ∈ sortedSet (a :: rest) :=
          (mem_sortedSet a (a :: rest)).mpr (List.mem_cons_self a rest)
        rw [hss] at this
        exact absurd this (List.not_mem_nil a)
    · rw [hss] at hsorted
      obtain ⟨hmem, hmin, htie⟩ :=
        pyMinBy_sorted_spec (fun y => |y - spot|) xs x hsorted
      refine ⟨pyMinBy (fun y => |y - spot|) x xs, ?_, ?_, ?_, ?_⟩
      · rw [find_atm_strike, hss]
      · have : pyMinBy (fun y => |y - spot|) x xs ∈ sortedSet strikes := by
          rw [hss]; exact hmem
        exact (mem_sortedSet _ strikes).mp this
      · intro s hs
        have hs' : s ∈ x :: xs := by
          rw [← hss]; exact (mem_sortedSet s strikes).mpr hs
        exact hmin s hs'
      · intro s hs hkey
        have hs' : s ∈ x :: xs := by
          rw [← hss]; exact (mem_sortedSet s strikes).mpr hs
        exact htie s hs' hkey
  · intro spot strikes
    rw [find_atm_strike, calculate_atm_strike.eq_def]
    rcases sortedSet strikes with _ | ⟨x, xs⟩ <;> rfl

/-- An exchange model that accepts any order with id 1. -/
def acceptAllOrders : OrderClient := fun _ => .ok (some { id := 1 })

/-- C2 counterexample: `place_market_order` with size 0 issues the POST
request and succeeds, and `place_limit_order` with size -5 also issues
its request — the claimed local `size > 0` validation does not exist in
`OrderAPI.place_market_order` / `place_limit_order`. -/
theorem C2_counterexample_nonpositive_size_is_sent :
    (place_market_order acceptAllOrders 101 "buy" 0).2 =
      [{ method := .POST, path := "/v2/orders", queryParams := [],
         body := [("product_id", .jInt 101), ("side", .jStr "buy"),
                  ("size", .jInt 0), ("order_type", .jStr "market_order")] }] ∧
    (place_market_order acceptAllOrders 101 "buy" 0).1 =
      .ok { id := 1 } ∧
    (place_limit_order acceptAllOrders 101 "sell" (-5) 10).2 ≠ [] := by
  refine ⟨rfl, rfl, ?_⟩
  intro h
  simp [place_limit_order, acceptAllOrders] at h

/-- C2 (amended): `place_market_order` and `place_limit_order` perform
no local size validation at all — for every client, product, side, size
(including size ≤ 0) and limit price, exactly one POST `/v2/orders`
request is issued, carrying that size unchanged. -/
theorem C2_amended_no_local_size_validation :
    ∀ (client : OrderClient) (pid : ℤ) (side : String) (size : ℤ) (lp : ℚ),
      (place_market_order client pid side size).2 =
        [{ method := .POST, path := "/v2/orders", queryParams := [],
           body := [("product_id", .jInt pid), ("side", .jStr side),
                    ("size", .jInt size),
                    ("order_type", .jStr ORDER_TYPE_MARKET)] }] ∧
      (place_limit_order client pid side size lp).2 =
        [{ method := .POST, path := "/v2/orders", queryParams := [],
           body := [("product_id", .jInt pid), ("side", .jStr side),
                    ("size", .jInt size),
                    ("order_type", .jStr ORDER_TYPE_LIMIT),
                    ("limit_price", .jStr (toString lp))] }] := by
  intro client pid side size lp
  constructor
  · rcases h : client ⟨.POST, "/v2/orders", [],
        [("product_id", .jInt pid), ("side", .jStr side),
         ("size", .jInt size), ("order_type", .jStr ORDER_TYPE_MARKET)]⟩
      with e | o
    · simp [place_market_order, h]
    · cases o <;> simp [place_market_order, h]
  · rcases h : client ⟨.POST, "/v2/orders", [],
        [("product_id", .jInt pid), ("side", .jStr side),
         ("size", .jInt size), ("order_type", .jStr ORDER_TYPE_LIMIT),
         ("limit_price", .jStr (toString lp))]⟩
      with e | o
    · simp [place_limit_order, h]
    · cases o <;> simp [place_limit_order, h]

/-- A demo exchange for the straddle partial-failure scenario: the call
leg (product 10, buy, size 5) fills with the given order id; every other
order request fails with a transport error. -/
def straddle_demo_client (call_id : ℤ) : OrderClient := fun req =>
  if req = { method := .POST, path := "/v2/orders", queryParams := [],
             body := [("product_id", .jInt 10), ("side", .jStr "buy"),
                      ("size", .jInt 5),
                      ("order_type", .jStr ORDER_TYPE_MARKET)] } then
    .ok (some { id := call_id })
  else .error "Connection timeout"

/-- C1 counterexample: when the call leg (product 10) fills and the put
leg (product 20) raises, `place_straddle_orders` returns exactly the put
leg's error — and two exchanges that differ only in the call leg's order
id (777 vs 888) produce identical results, so the failure delivered to
the caller cannot report the call leg's order id. -/
theorem C1_counterexample_put_failure_hides_call_order_id :
    place_straddle_orders (straddle_demo_client 777) 10 20 "buy" 5 =
      (.error "Connection timeout",
       [{ method := .POST, path := "/v2/orders", queryParams := [],
          body := [("product_id", .jInt 10), ("side", .jStr "buy"),
                   ("size", .jInt 5), ("order_type", .jStr "market_order")] },
        { method := .POST, path := "/v2/orders", queryParams := [],
          body := [("product_id", .jInt 20), ("side", .jStr "buy"),
                   ("size", .jInt 5),
                   ("order_type", .jStr "market_order")] }]) ∧
    place_straddle_orders (straddle_demo_client 777) 10 20 "buy" 5 =
      place_straddle_orders (straddle_demo_client 888) 10 20 "buy" 5 := by
  constructor <;> rfl

/-- C1 (amended): if the call-leg market order succeeds and the put-leg
market order fails, the straddle call returns exactly the put leg's
error (the call leg's success and order id are not part of the result),
and the issued requests are the two POST order placements only — in
particular no cancellation of the live call leg is attempted. -/
theorem C1_amended_put_failure_raises_put_error_without_cancel
    (client : OrderClient) (cpid ppid : ℤ) (side : String) (size : ℤ)
    (callOrd : OrderResult) (e : String)
    (hcall : client ⟨.POST, "/v2/orders", [],
        [("product_id", .jInt cpid), ("side", .jStr side),
         ("size", .jInt size), ("order_type", .jStr ORDER_TYPE_MARKET)]⟩ =
      .ok (some callOrd))
    (hput : client ⟨.POST, "/v2/orders", [],
        [("product_id", .jInt ppid), ("side", .jStr side),
         ("size", .jInt size), ("order_type", .jStr ORDER_TYPE_MARKET)]⟩ =
      .error e) :
    place_straddle_orders client cpid ppid side size =
      (.error e,
       [{ method := .POST, path := "/v2/orders", queryParams := [],
          body := [("product_id", .jInt cpid), ("side", .jStr side),
                   ("size", .jInt size),
                   ("order_type", .jStr ORDER_TYPE_MARKET)] },
        { method := .POST, path := "/v2/orders", queryParams := [],
          body := [("product_id", .jInt ppid), ("side", .jStr side),
                   ("size", .jInt size),
                   ("order_type", .jStr ORDER_TYPE_MARKET)] }]) ∧
    ∀ r ∈ (place_straddle_orders client cpid ppid side size).2,
      r.method = .POST ∧ r.path = "/v2/orders" := by
  have h1 : place_market_order client cpid side size =
      (.ok callOrd,
       [{ method := .POST, path := "/v2/orders", queryParams := [],
          body := [("product_id", .jInt cpid), ("side", .jStr side),
                   ("size", .jInt size),
                   ("order_type", .jStr ORDER_TYPE_MARKET)] }]) := by
    simp [place_market_order, hcall]
  have h2 : place_market_order client ppid side size =
      (.error e,
       [{ method := .POST, path := "/v2/orders", queryParams := [],
          body := [("product_id", .jInt ppid), ("side", .jStr side),
                   ("size", .jInt size),
                   ("order_type", .jStr ORDER_TYPE_MARKET)] }]) := by
    simp [place_market_order, hput]
  have hmain : place_straddle_orders client cpid ppid side size =
      (.error e,
       [{ method := .POST, path := "/v2/orders", queryParams := [],
          body := [("product_id", .jInt cpid), ("side", .jStr side),
                   ("size", .jInt size),
                   ("order_type", .jStr ORDER_TYPE_MARKET)] },
        { method := .POST, path := "/v2/orders", queryParams := [],
          body := [("product_id", .jInt ppid), ("side", .jStr side),
                   ("size", .jInt size),
                   ("order_type", .jStr ORDER_TYPE_MARKET)] }]) := by
    simp [place_straddle_orders, h1, h2]
  refine ⟨hmain, ?_⟩
  intro r hr
  rw [hmain] at hr
  rcases List.mem_cons.mp hr with h | h
  · rw [h]
    exact ⟨rfl, rfl⟩
  · rcases List.mem_cons.mp h with h' | h'
    · rw [h']
      exact ⟨rfl, rfl⟩
    · exact absurd h' (List.not_mem_nil r)

/-- Witness for the amended C1 at the demo exchange (call id 777, call
product 10, put product 20). -/
theorem C1_amended_witness :
    place_straddle_orders (straddle_demo_client 777) 10 20 "buy" 5 =
      (.error "Connection timeout",
       [{ method := .POST, path := "/v2/orders", queryParams := [],
          body := [("product_id", .jInt 10), ("side", .jStr "buy"),
                   ("size", .jInt 5),
                   ("order_type", .jStr ORDER_TYPE_MARKET)] },
        { method := .POST, path := "/v2/orders", queryParams := [],
          body := [("product_id", .jInt 20), ("side", .jStr "buy"),
                   ("size", .jInt 5),
                   ("order_type", .jStr ORDER_TYPE_MARKET)] }]) ∧
    ∀ r ∈ (place_straddle_orders (straddle_demo_client 777) 10 20
        "buy" 5).2,
      r.method = .POST ∧ r.path = "/v2/orders" :=
  C1_amended_put_failure_raises_put_error_without_cancel
    (straddle_demo_client 777) 10 20 "buy" 5 { id := 777 }
    "Connection timeout" (by rfl) (by rfl)

/-- C6: `place_batch_stop_orders` attempts every order independently of
earlier failures: the result list is the per-item outcome map (same
length, input order), entry i is the success entry with the placed order
exactly when the i-th placement succeeded and the failure entry with the
error otherwise. -/
theorem C6_batch_stop_orders_isolate_failures :
    ∀ (client : OrderClient) (orders : List StopOrderSpec) (kind : String),
      (place_batch_stop_orders client orders kind).1 =
        orders.map (fun od => (batch_place_one client kind od).1) ∧
      (place_batch_stop_orders client orders kind).1.length =
        orders.length ∧
      (∀ (i : ℕ) (od : StopOrderSpec), orders[i]? = some od →
        (place_batch_stop_orders client orders kind).1[i]? =
          some (batch_place_one client kind od).1) ∧
      (∀ od : StopOrderSpec,
        match (if kind = "stop_loss" then
            place_stop_loss_order client od.product_id od.side od.size
              od.stop_price od.limit_price
          else
            place_take_profit_order client od.product_id od.side od.size
              od.stop_price od.limit_price).1 with
        | .ok o => (batch_place_one client kind od).1 =
            { success := true, order := some o, error := none,
              product_id := od.product_id }
        | .error e => (batch_place_one client kind od).1 =
            { success := false, order := none, error := some e,
              product_id := od.product_id }) := by
  intro client orders kind
  have hmap : (place_batch_stop_orders client orders kind).1 =
      orders.map (fun od => (batch_place_one client kind od).1) := by
    unfold place_batch_stop_orders
    rw [batch_foldl_general client kind orders ([], [])]
    simp
  refine ⟨hmap, ?_, ?_, ?_⟩
  · rw [hmap, List.length_map]
  · intro i od hod
    rw [hmap, List.getElem?_map, hod]
    rfl
  · intro od
    rcases hE : (if kind = "stop_loss" then
        place_stop_loss_order client od.product_id od.side od.size
          od.stop_price od.limit_price
      else
        place_take_profit_order client od.product_id od.side od.size
          od.stop_price od.limit_price) with ⟨res, tr⟩
    cases res with
    | ok o => simp [batch_place_one, hE]
    | error e => simp [batch_place_one, hE]

/-- Witness for C6: a two-order batch against an exchange that rejects
product 7 and fills product 8 yields, at index 0, the failure entry. -/
theorem C6_batch_stop_orders_isolate_failures_witness :
    (place_batch_stop_orders
      (fun req =>
        if (req.body.contains ("product_id", JVal.jInt 7)) then
          .error "insufficient margin"
        else .ok (some { id := 9 }))
      [{ product_id := 7, side := "sell", size := 2, stop_price := 95000,
         limit_price := 94500 },
       { product_id := 8, side := "sell", size := 2, stop_price := 95000,
         limit_price := 94500 }] "stop_loss").1[0]? =
      some { success := false, order := none,
             error := some "insufficient margin", product_id := 7 } := by
  have h := (C6_batch_stop_orders_isolate_failures
    (fun req =>
      if (req.body.contains ("product_id", JVal.jInt 7)) then
        .error "insufficient margin"
      else .ok (some { id := 9 }))
    [{ product_id := 7, side := "sell", size := 2, stop_price := 95000,
       limit_price := 94500 },
     { product_id := 8, side := "sell", size := 2, stop_price := 95000,
       limit_price := 94500 }] "stop_loss").2.2.1 0
    { product_id := 7, side := "sell", size := 2, stop_price := 95000,
      limit_price := 94500 } rfl
  rw [h]
  rfl

/-- C5: while the session awaits a stop-loss percentage or price input,
an input that fails validation leaves the whole session record —
conversation state and all collected scratch data — unchanged. -/
theorem C5_invalid_input_leaves_session_unchanged
    (ctx : UserContext) (text : String)
    (hstate : ctx.conversation_state ∈
      ([some STATE_AWAITING_SL_TRIGGER_PCT, some STATE_AWAITING_SL_LIMIT_PCT,
        some STATE_AWAITING_SL_TRIGGER_NUM, some STATE_AWAITING_SL_LIMIT_NUM] :
        List (Option String)))
    (hinvalid : (if ctx.conversation_state = some STATE_AWAITING_SL_TRIGGER_PCT ∨
        ctx.conversation_state = some STATE_AWAITING_SL_LIMIT_PCT then
        validate_percentage (pyStrip text)
      else validate_price (pyStrip text)).1 = false) :
    handle_stoploss_input ctx text = ctx := by
  rcases hv : (if ctx.conversation_state = some STATE_AWAITING_SL_TRIGGER_PCT ∨
      ctx.conversation_state = some STATE_AWAITING_SL_LIMIT_PCT then
      validate_percentage (pyStrip text)
    else validate_price (pyStrip text)) with ⟨b, ov, msg⟩
  rw [hv] at hinvalid
  simp only at hinvalid
  subst hinvalid
  simp only [handle_stoploss_input]
  rw [if_neg (not_not_intro hstate), hv]

/-- Witness for C5: a session awaiting the trigger percentage is
unchanged by the out-of-range input "150". -/
theorem C5_invalid_input_leaves_session_unchanged_witness :
    handle_stoploss_input
      { user_id := 42, account_index := some 1,
        account_credentials := some ("k", "s"),
        account_name := some "Main", account_description := some "",
        selected_asset := none, selected_expiry := none,
        selected_strike := none, call_product_id := none,
        put_product_id := none, lot_size := none, trade_direction := none,
        conversation_state := some STATE_AWAITING_SL_TRIGGER_PCT,
        temp_data := [("sl_entry_price", .num 100000)] } "150" =
      { user_id := 42, account_index := some 1,
        account_credentials := some ("k", "s"),
        account_name := some "Main", account_description := some "",
        selected_asset := none, selected_expiry := none,
        selected_strike := none, call_product_id := none,
        put_product_id := none, lot_size := none, trade_direction := none,
        conversation_state := some STATE_AWAITING_SL_TRIGGER_PCT,
        temp_data := [("sl_entry_price", .num 100000)] } :=
  C5_invalid_input_leaves_session_unchanged _ "150"
    (by simp)
    (by simp +decide [pyStrip, validate_percentage, pyFloat, spanDigits,
      natOfDigits, List.dropWhile, List.foldl])

/-- C10: returning to the main menu with an account selected clears the
workflow data (the seven trade fields, the scratch dict and the
conversation state) while leaving the user id, account index,
credentials, account name and description exactly as they were. -/
theorem C10_main_menu_resets_workflow_keeps_account
    (ctx : UserContext) (hcred : ctx.account_credentials ≠ none) :
    ((handle_main_menu ctx).user_id = ctx.user_id ∧
     (handle_main_menu ctx).account_index = ctx.account_index ∧
     (handle_main_menu ctx).account_credentials = ctx.account_credentials ∧
     (handle_main_menu ctx).account_name = ctx.account_name ∧
     (handle_main_menu ctx).account_description = ctx.account_description) ∧
    ((handle_main_menu ctx).selected_asset = none ∧
     (handle_main_menu ctx).selected_expiry = none ∧
     (handle_main_menu ctx).selected_strike = none ∧
     (handle_main_menu ctx).call_product_id = none ∧
     (handle_main_menu ctx).put_product_id = none ∧
     (handle_main_menu ctx).lot_size = none ∧
     (handle_main_menu ctx).trade_direction = none ∧
     (handle_main_menu ctx).temp_data = [] ∧
     (handle_main_menu ctx).conversation_state = none) := by
  have h : handle_main_menu ctx =
      { clear_trade_data ctx with conversation_state := none } := by
    rw [handle_main_menu, if_neg hcred]
  rw [h]
  simp [clear_trade_data]

/-- Witness for C10 on a fully populated session. -/
theorem C10_main_menu_resets_workflow_keeps_account_witness :
    (handle_main_menu
      { user_id := 42, account_index := some 2,
        account_credentials := some ("k", "s"),
        account_name := some "Main", account_description := some "desc",
        selected_asset := some "BTCUSD", selected_expiry := some 1761278400,
        selected_strike := some 50000, call_product_id := some 10,
        put_product_id := some 20, lot_size := some 5,
        trade_direction := some "long",
        conversation_state := some "awaiting_custom_lot",
        temp_data := [("sl_entry_price", .num 100000)] }).account_credentials =
      some ("k", "s") ∧
    (handle_main_menu
      { user_id := 42, account_index := some 2,
        account_credentials := some ("k", "s"),
        account_name := some "Main", account_description := some "desc",
        selected_asset := some "BTCUSD", selected_expiry := some 1761278400,
        selected_strike := some 50000, call_product_id := some 10,
        put_product_id := some 20, lot_size := some 5,
        trade_direction := some "long",
        conversation_state := some "awaiting_custom_lot",
        temp_data := [("sl_entry_price", .num 100000)] }).conversation_state =
      none := by
  have h := C10_main_menu_resets_workflow_keeps_account
    { user_id := 42, account_index := some 2,
      account_credentials := some ("k", "s"),
      account_name := some "Main", account_description := some "desc",
      selected_asset := some "BTCUSD", selected_expiry := some 1761278400,
      selected_strike := some 50000, call_product_id := some 10,
      put_product_id := some 20, lot_size := some 5,
      trade_direction := some "long",
      conversation_state := some "awaiting_custom_lot",
      temp_data := [("sl_entry_price", .num 100000)] }
    (by simp)
  exact ⟨h.1.2.2.1, h.2.2.2.2.2.2.2.2.2⟩

/-- Every request in the no-filter (BTC+ETH) branch's trace is one of
the two underlying-asset requests. -/
theorem mem_get_positions_btc_eth_trace (client : PositionClient)
    (r : HttpRequest) (hr : r ∈ (get_positions_btc_eth client).2) :
    r = ⟨.GET, "/v2/positions", [("underlying_asset_symbol", "BTC")], []⟩ ∨
    r = ⟨.GET, "/v2/positions", [("underlying_asset_symbol", "ETH")], []⟩ := by
  have ht1 := get_positions_request_trace client
    [("underlying_asset_symbol", "BTC")]
  have ht2 := get_positions_request_trace client
    [("underlying_asset_symbol", "ETH")]
  unfold get_positions_btc_eth at hr
  rcases h1 : get_positions_request client
      [("underlying_asset_symbol", "BTC")] with ⟨r1, t1⟩
  rcases h2 : get_positions_request client
      [("underlying_asset_symbol", "ETH")] with ⟨r2, t2⟩
  rw [h1] at ht1
  rw [h2] at ht2
  simp only at ht1 ht2
  rw [h1, h2] at hr
  cases r1 with
  | error e =>
    simp only at hr
    rw [ht1] at hr
    exact Or.inl (List.mem_singleton.mp hr)
  | ok v1 =>
    cases r2 with
    | error e =>
      simp only at hr
      rw [ht1, ht2] at hr
      rcases List.mem_cons.mp hr with h | h
      · exact Or.inl h
      · exact Or.inr (List.mem_singleton.mp h)
    | ok v2 =>
      simp only at hr
      rw [ht1, ht2] at hr
      rcases List.mem_cons.mp hr with h | h
      · exact Or.inl h
      · exact Or.inr (List.mem_singleton.mp h)

/-- A positions exchange model that answers every request with an empty
result list. -/
def positions_demo_client : PositionClient := fun _ => .ok (some [])

/-- C8 counterexample: listing positions filtered by product id 5 issues
a GET /v2/positions request whose query string carries
`product_id=5` — not an empty query with client-side filtering. -/
theorem C8_counterexample_positions_request_has_query_params :
    (get_positions positions_demo_client (some 5) none).2 =
      [⟨.GET, "/v2/positions", [("product_id", "5")], []⟩] ∧
    ([("product_id", "5")] : List (String × String)) ≠ [] := by
  exact ⟨rfl, by simp⟩

/-- C8 (amended): every request issued by `get_positions` goes to GET
`/v2/positions` with exactly one query parameter — `product_id` when a
(truthy) product id is given, otherwise `underlying_asset_symbol` (the
given asset, or BTC and ETH when no filter is given); filtering is
delegated to the exchange through the query string. -/
theorem C8_amended_positions_requests_carry_one_filter_param
    (client : PositionClient) (pid : Option ℤ) (ua : Option String) :
    ∀ r ∈ (get_positions client pid ua).2,
      r.method = .GET ∧ r.path = "/v2/positions" ∧
        ((∃ p : ℤ, r.queryParams = [("product_id", toString p)]) ∨
         (∃ u : String, r.queryParams = [("underlying_asset_symbol", u)])) := by
  intro r hr
  have hshape : r = ⟨.GET, "/v2/positions", [("product_id",
        toString (pid.getD 0))], []⟩ ∨
      ∃ u : String, r = ⟨.GET, "/v2/positions",
        [("underlying_asset_symbol", u)], []⟩ := by
    rcases pid with _ | p
    · rcases ua with _ | u
      · rcases mem_get_positions_btc_eth_trace client r hr with h | h
        · exact Or.inr ⟨"BTC", h⟩
        · exact Or.inr ⟨"ETH", h⟩
      · by_cases hu : u ≠ ""
        · rw [show (get_positions client none (some u)).2 =
              (get_positions_request client
                [("underlying_asset_symbol", u)]).2 from by
              simp [get_positions, hu],
            get_positions_request_trace] at hr
          exact Or.inr ⟨u, List.mem_singleton.mp hr⟩
        · rw [show (get_positions client none (some u)).2 =
              (get_positions_btc_eth client).2 from by
              simp [get_positions, not_not.mp hu]] at hr
          rcases mem_get_positions_btc_eth_trace client r hr with h | h
          · exact Or.inr ⟨"BTC", h⟩
          · exact Or.inr ⟨"ETH", h⟩
    · by_cases hp : p ≠ 0
      · rw [show (get_positions client (some p) ua).2 =
            (get_positions_request client
              [("product_id", toString p)]).2 from by
            simp [get_positions, hp],
          get_positions_request_trace] at hr
        rw [List.mem_singleton.mp hr]
        exact Or.inl rfl
      · rw [not_not.mp hp] at hr ⊢
        rcases ua with _ | u
        · rw [show (get_positions client (some 0) none).2 =
              (get_positions_btc_eth client).2 from by
              simp [get_positions]] at hr
          rcases mem_get_positions_btc_eth_trace client r hr with h | h
          · exact Or.inr ⟨"BTC", h⟩
          · exact Or.inr ⟨"ETH", h⟩
        · by_cases hu : u ≠ ""
          · rw [show (get_positions client (some 0) (some u)).2 =
                (get_positions_request client
                  [("underlying_asset_symbol", u)]).2 from by
                simp [get_positions, hu],
              get_positions_request_trace] at hr
            exact Or.inr ⟨u, List.mem_singleton.mp hr⟩
          · rw [show (get_positions client (some 0) (some u)).2 =
                (get_positions_btc_eth client).2 from by
                simp [get_positions, not_not.mp hu]] at hr
            rcases mem_get_positions_btc_eth_trace client r hr with h | h
            · exact Or.inr ⟨"BTC", h⟩
            · exact Or.inr ⟨"ETH", h⟩
  rcases hshape with h | ⟨u, h⟩
  · rw [h]
    exact ⟨rfl, rfl, Or.inl ⟨pid.getD 0, rfl⟩⟩
  · rw [h]
    exact ⟨rfl, rfl, Or.inr ⟨u, rfl⟩⟩

/-- Witness for the amended C8: the single request of a product-id-5
listing is a GET /v2/positions with the one filter parameter. -/
theorem C8_amended_positions_requests_carry_one_filter_param_witness :
    (⟨.GET, "/v2/positions", [("product_id", "5")], []⟩ :
        HttpRequest).method = .GET ∧
    (⟨.GET, "/v2/positions", [("product_id", "5")], []⟩ :
        HttpRequest).path = "/v2/positions" ∧
    ((∃ p : ℤ, (⟨.GET, "/v2/positions", [("product_id", "5")], []⟩ :
        HttpRequest).queryParams = [("product_id", toString p)]) ∨
     (∃ u : String, (⟨.GET, "/v2/positions", [("product_id", "5")], []⟩ :
        HttpRequest).queryParams = [("underlying_asset_symbol", u)])) :=
  C8_amended_positions_requests_carry_one_filter_param
    positions_demo_client (some 5) none
    ⟨.GET, "/v2/positions", [("product_id", "5")], []⟩
    (by exact List.mem_cons_self _ _)

/-- Two products whose settlement times fall in the same
(year, month, day, hour) but differ in minutes. -/
def expiry_demo_products : List (Option SettlementVal) :=
  [some (.str "2025-10-24T04:00:00Z"), some (.str "2025-10-24T04:30:00Z")]

/-- C7 counterexample: the source deduplicates by the exact unix
timestamp, not by (year, month, day, hour): settlement times 04:00:00
and 04:30:00 of the same day yield TWO expiries 1800 seconds apart in
the same hour, where the spec's truncate-then-deduplicate rule yields
one. -/
theorem C7_counterexample_no_hour_truncation :
    get_available_expiries expiry_demo_products =
      [1761278400, 1761280200] ∧
    (1761278400 : ℤ) / 3600 = (1761280200 : ℤ) / 3600 ∧
    get_available_expiries_spec expiry_demo_products = [1761278400] ∧
    get_available_expiries expiry_demo_products ≠
      get_available_expiries_spec expiry_demo_products := by
  exact ⟨by decide, by decide, by decide, by decide⟩

/-- C7 (amended): `get_available_expiries` converts each truthy
settlement time to a unix timestamp at full-second granularity,
deduplicates the exact timestamps, and returns them strictly ascending;
a product whose settlement time fails to parse contributes nothing
(the call itself still succeeds), captured by the membership
characterisation. -/
theorem C7_amended_expiries_sorted_dedup_skip_malformed
    (products : List (Option SettlementVal)) :
    (get_available_expiries products).Sorted (· < ·) ∧
    (∀ t : ℤ, t ∈ get_available_expiries products ↔
      ∃ v, some v ∈ products ∧ settlement_truthy (some v) = true ∧
        parse_settlement v = some t) := by
  constructor
  · exact sorted_sortedSet _
  · intro t
    rw [get_available_expiries, mem_sortedSet, mem_foldl_expiries_step]
    simp

/-- Witness for the amended C7 on the demo catalog: 1761280200 is
reported because the 04:30:00 product parses to it. -/
theorem C7_amended_expiries_sorted_dedup_skip_malformed_witness :
    (get_available_expiries expiry_demo_products).Sorted (· < ·) ∧
    (1761280200 : ℤ) ∈ get_available_expiries expiry_demo_products :=
  ⟨(C7_amended_expiries_sorted_dedup_skip_malformed expiry_demo_products).1,
   ((C7_amended_expiries_sorted_dedup_skip_malformed
      expiry_demo_products).2 1761280200).mpr
     ⟨.str "2025-10-24T04:30:00Z", by decide, by decide, by decide⟩⟩

/-- Witness for C3 at strikes {50000, 50500} and spot 50250. -/
theorem C3_atm_strike_minimises_distance_with_low_tie_break_witness :
    ∃ r, find_atm_strike 50250 [50000, 50500] = some r ∧
      r ∈ [(50000 : ℚ), 50500] ∧
      (∀ s ∈ [(50000 : ℚ), 50500], |r - 50250| ≤ |s - 50250|) ∧
      (∀ s ∈ [(50000 : ℚ), 50500], |s - 50250| = |r - 50250| → r ≤ s) :=
  C3_atm_strike_minimises_distance_with_low_tie_break.1 50250 [50000, 50500]
    (List.cons_ne_nil 50000 [50500])

/-- Witness for C9 at position size 5. -/
theorem C9_protective_side_from_position_sign_witness :
    (protective_order_side 5 = SIDE_SELL ↔ 0 < (5 : ℤ)) ∧
    (protective_order_side 5 = SIDE_BUY ↔ ¬ 0 < (5 : ℤ)) ∧
    protective_order_side 5 =
      (if determine_position_side 5 = "long" then SIDE_SELL
       else SIDE_BUY) :=
  C9_protective_side_from_position_sign.1 5

end DeltaBot
